import Mathlib

/-!
Verification development for the RJD media-center node (per-camera WebRTC
fan-out).  Shallow embedding, translated from the C++ sources:

* the signaling JSON envelope and its wire form (`boost::json` subset used by
  `UCamera::json`, `boost::json::serialize`, `boost::json::parse`);
* the inbound signaling dispatcher `UCamera::on_signaling_message`;
* the per-camera session table and live-graph mutation
  (`UCamera::open_new_session`, `UCamera::close_session`);
* DMA-BUF frame ownership (`FDrmFrame`, `UCamera::push_frames_to_gst_pipeline`);
* the RTSP probe caps handler (`UCamera::on_parser_event`);
* the signaling server fan-out (`USignalingServer::broadcast_to_room`);
* the outbound websocket client queue (`UWebSocketClient::send` / `do_write`).
-/

namespace RJD

/- ==================================================================
   Signaling field names (include/signaling_definers.h)
   ================================================================== -/

def SIG_RET : String := "ret"
def SIG_TYPE : String := "type"
def SIG_CLIENT : String := "client_id"
def SIG_CAMERA : String := "camera"
def SIG_DECRIPTION : String := "description"
def SIG_SENDER : String := "sender"
def SIG_RET_FAULT : String := "fault"
def SIG_RET_SUCCESS : String := "success"
def SIG_TYPE_CONNECT : String := "connection"
def SIG_SENDER_CAMERA : String := "camera"
def SIG_ICE_CANDIDATE : String := "candidate"
def SIG_ICE_LINE_INDEX : String := "sdpMLineIndex"
def SIG_SDP : String := "sdp"

/- ==================================================================
   boost::json model.

   The envelopes the code builds (`UCamera::json` plus the `sdp`,
   `candidate` and `sdpMLineIndex` insertions in `on_offer_created` and
   `on_ice_candidate`) only ever hold string and int64 values, so the
   embedded value type has exactly those two constructors.  An object is
   the insertion-ordered member list of a `boost::json::object`; the
   builders never repeat a key.
   ================================================================== -/

inductive JVal where
  | str : String → JVal
  | int : Int → JVal
deriving DecidableEq, Repr

abbrev JObj := List (String × JVal)

/-- `object::if_contains`: first member with the given key. -/
def jlookup : JObj → String → Option JVal
  | [], _ => none
  | (k, v) :: rest, key => if k = key then some v else jlookup rest key

namespace BoostJson

/- ---------- serializer (boost::json::serialize) ---------- -/

def hexDigit (n : Nat) : Char :=
  if n < 10 then Char.ofNat (48 + n) else Char.ofNat (87 + n)

/-- One character of a JSON string, escaped as the serializer writes it:
quote and backslash get a two-character escape, the named control
characters get their short escapes, the remaining control characters are
written as a `u00XX` escape, everything else passes through. -/
def escChar (c : Char) : List Char :=
  if c = '\"' then ['\\', '\"']
  else if c = '\\' then ['\\', '\\']
  else if c = Char.ofNat 8 then ['\\', 'b']
  else if c = Char.ofNat 9 then ['\\', 't']
  else if c = Char.ofNat 10 then ['\\', 'n']
  else if c = Char.ofNat 12 then ['\\', 'f']
  else if c = Char.ofNat 13 then ['\\', 'r']
  else if c.toNat < 32 then
    ['\\', 'u', '0', '0', hexDigit (c.toNat / 16), hexDigit (c.toNat % 16)]
  else [c]

def renderStringChars (s : List Char) : List Char :=
  '\"' :: (s.flatMap escChar ++ ['\"'])

def digitChar (n : Nat) : Char := Char.ofNat (48 + n)

def natChars (n : Nat) : List Char :=
  if h : n < 10 then [digitChar n]
  else natChars (n / 10) ++ [digitChar (n % 10)]
termination_by n
decreasing_by exact Nat.div_lt_self (by omega) (by omega)

def intChars (i : Int) : List Char :=
  if i < 0 then '-' :: natChars i.natAbs else natChars i.toNat

def renderVal : JVal → List Char
  | .str s => renderStringChars s.data
  | .int i => intChars i

def renderMembers : JObj → List Char
  | [] => []
  | [(k, v)] => renderStringChars k.data ++ ':' :: renderVal v
  | (k, v) :: rest =>
      renderStringChars k.data ++ ':' :: renderVal v ++ ',' :: renderMembers rest

def renderObj (o : JObj) : List Char :=
  '\x7b' :: (renderMembers o ++ ['\x7d'])

/-- `boost::json::serialize` on an envelope object. -/
def serialize (o : JObj) : String := String.mk (renderObj o)

/- ---------- reader (boost::json::parse) ---------- -/

def unhex (c : Char) : Option Nat :=
  if 48 ≤ c.toNat ∧ c.toNat ≤ 57 then some (c.toNat - 48)
  else if 97 ≤ c.toNat ∧ c.toNat ≤ 102 then some (c.toNat - 87)
  else if 65 ≤ c.toNat ∧ c.toNat ≤ 70 then some (c.toNat - 55)
  else none

/-- The four hex digits of a `u00XX` escape. -/
def readHex4 : List Char → Option (Char × List Char)
  | h1 :: h2 :: h3 :: h4 :: rest => do
      let a ← unhex h1
      let b ← unhex h2
      let c ← unhex h3
      let d ← unhex h4
      pure (Char.ofNat (((a * 16 + b) * 16 + c) * 16 + d), rest)
  | _ => none

/-- The single-character short escapes. -/
def escCode (e : Char) : Option Char :=
  if e = '\"' then some '\"'
  else if e = '\\' then some '\\'
  else if e = '/' then some '/'
  else if e = 'b' then some (Char.ofNat 8)
  else if e = 't' then some (Char.ofNat 9)
  else if e = 'n' then some (Char.ofNat 10)
  else if e = 'f' then some (Char.ofNat 12)
  else if e = 'r' then some (Char.ofNat 13)
  else none

/-- Read the escape sequence that follows a backslash. -/
def readEsc : List Char → Option (Char × List Char)
  | [] => none
  | e :: rest =>
      match escCode e with
      | some d => some (d, rest)
      | none => if e = 'u' then readHex4 rest else none

theorem readHex4_length {l : List Char} {c : Char} {r : List Char}
    (h : readHex4 l = some (c, r)) : r.length + 4 = l.length := by
  match l with
  | [] => exact absurd h (by simp [readHex4])
  | [_] => exact absurd h (by simp [readHex4])
  | [_, _] => exact absurd h (by simp [readHex4])
  | [_, _, _] => exact absurd h (by simp [readHex4])
  | h1 :: h2 :: h3 :: h4 :: rest =>
      simp only [readHex4, bind, Option.bind_eq_some, Option.pure_def,
        Option.some.injEq] at h
      obtain ⟨a, -, b, -, c', -, d, -, h⟩ := h
      cases h
      simp

theorem readEsc_length {l : List Char} {c : Char} {r : List Char}
    (h : readEsc l = some (c, r)) : r.length < l.length := by
  match l with
  | [] => simp [readEsc] at h
  | e :: rest =>
      simp only [readEsc] at h
      cases hec : escCode e <;> simp only [hec] at h
      · split at h
        · have := readHex4_length h
          simp
          omega
        · cases h
      · injection h with h'
        cases h'
        simp

/-- Read string characters up to the closing quote. -/
def parseStringChars (l : List Char) : Option (List Char × List Char) :=
  match l with
  | [] => none
  | c :: rest =>
      if c = '\"' then some ([], rest)
      else if c = '\\' then
        match h : readEsc rest with
        | none => none
        | some (d, rest2) =>
            match parseStringChars rest2 with
            | none => none
            | some (s, r) => some (d :: s, r)
      else
        match parseStringChars rest with
        | none => none
        | some (s, r) => some (c :: s, r)
termination_by l.length
decreasing_by
  · exact Nat.lt_trans (readEsc_length h) (Nat.lt_succ_self _)
  · exact Nat.lt_succ_self _

def isDig (c : Char) : Bool := 48 ≤ c.toNat && c.toNat ≤ 57

def takeDigits : List Char → List Char × List Char
  | [] => ([], [])
  | c :: rest =>
      if isDig c then
        let p := takeDigits rest
        (c :: p.1, p.2)
      else ([], c :: rest)

def digitsToNat (l : List Char) : Nat :=
  l.foldl (fun acc c => acc * 10 + (c.toNat - 48)) 0

def parseNat (l : List Char) : Option (Nat × List Char) :=
  match takeDigits l with
  | ([], _) => none
  | (ds, rest) => some (digitsToNat ds, rest)

def parseInt (l : List Char) : Option (Int × List Char) :=
  match l with
  | [] => none
  | c :: rest =>
      if c = '-' then
        match parseNat rest with
        | none => none
        | some (n, r) => some (-(n : Int), r)
      else
        match parseNat (c :: rest) with
        | none => none
        | some (n, r) => some ((n : Int), r)

def parseVal (l : List Char) : Option (JVal × List Char) :=
  match l with
  | [] => none
  | c :: rest =>
      if c = '\"' then
        match parseStringChars rest with
        | none => none
        | some (s, r) => some (JVal.str (String.mk s), r)
      else
        match parseInt (c :: rest) with
        | none => none
        | some (i, r) => some (JVal.int i, r)

/-- Member list reader (fuel-indexed; the fuel bounds the member count). -/
def parseMembersF : Nat → List Char → Option (JObj × List Char)
  | 0, _ => none
  | fuel + 1, l =>
      match l with
      | [] => none
      | c :: rest =>
          if c = '\"' then
            match parseStringChars rest with
            | none => none
            | some (k, r1) =>
                match r1 with
                | [] => none
                | c1 :: r2 =>
                    if c1 = ':' then
                      match parseVal r2 with
                      | none => none
                      | some (v, r3) =>
                          match r3 with
                          | [] => some ([(String.mk k, v)], [])
                          | c2 :: r4 =>
                              if c2 = ',' then
                                match parseMembersF fuel r4 with
                                | none => none
                                | some (o, r5) =>
                                    some ((String.mk k, v) :: o, r5)
                              else some ([(String.mk k, v)], c2 :: r4)
                    else none
          else none

def parseObjChars (l : List Char) : Option (JObj × List Char) :=
  match l with
  | [] => none
  | c :: rest =>
      if c = '\x7b' then
        match rest with
        | [] => none
        | d :: rest2 =>
            if d = '\x7d' then some ([], rest2)
            else
              match parseMembersF (d :: rest2).length (d :: rest2) with
              | none => none
              | some (o, r) =>
                  match r with
                  | [] => none
                  | e :: r2 => if e = '\x7d' then some (o, r2) else none
      else none

/-- `boost::json::parse` of a full text frame (must consume everything). -/
def parse (s : String) : Option JObj :=
  match parseObjChars s.data with
  | some (o, []) => some o
  | _ => none

end BoostJson

/- ==================================================================
   Session objects (camera.h: UCamera::FWebRtcSession).

   The C++ struct additionally owns the two GStreamer elements; the
   `remote_description_set` flag models the remote-description slot of
   the owned webrtcbin (written by the `offer`/`answer` branches of
   `on_signaling_message` through `set-remote-description`).  The struct
   has no field that stores ICE candidates.
   ================================================================== -/

structure FWebRtcSession where
  client_id : String
  camera_name : String
  remote_description_set : Bool := false
deriving DecidableEq, Repr

namespace UCamera

/-- `UCamera::json(const FWebRtcSession*, bool, string, string)`
(camera.cpp lines 1074-1094).  Note: no `sender` member is written. -/
def json4 (session : Option FWebRtcSession) (successed : Bool)
    (type description : String) : JObj :=
  match session with
  | none =>
      [(SIG_TYPE, .str type),
       (SIG_RET, .str SIG_RET_FAULT),
       (SIG_DECRIPTION, .str "Attempt to establish with non-existing session!")]
  | some s =>
      [(SIG_TYPE, .str type),
       (SIG_RET, .str (if successed then SIG_RET_SUCCESS else SIG_RET_FAULT)),
       (SIG_CLIENT, .str s.client_id),
       (SIG_CAMERA, .str s.camera_name),
       (SIG_DECRIPTION, .str description)]

/-- `UCamera::json(string camera, string client, bool, string, string)`
(camera.cpp lines 1096-1112). -/
def json5 (camera client : String) (successed : Bool)
    (type description : String) : JObj :=
  [(SIG_TYPE, .str type),
   (SIG_SENDER, .str SIG_SENDER_CAMERA),
   (SIG_RET, .str (if successed then SIG_RET_SUCCESS else SIG_RET_FAULT)),
   (SIG_CLIENT, .str client),
   (SIG_CAMERA, .str camera),
   (SIG_DECRIPTION, .str description)]

/- ==================================================================
   Inbound dispatcher: UCamera::on_signaling_message (camera.cpp 654-812).

   The function's observable effect on a well-parsed message is one of
   the actions below; the embedding returns which one is taken.
   ================================================================== -/

inductive SigAction where
  /-- missing or non-string `client_id`: message dropped, logged. -/
  | drop_missing_client : SigAction
  /-- missing or non-string `type`: message dropped, logged. -/
  | drop_missing_type : SigAction
  /-- `type == "connection"`: `open_new_session(client_id)` is invoked. -/
  | open_session (client : String) : SigAction
  /-- no session in `m_opened_sessions` for this client: dropped, logged. -/
  | no_open_session (client : String) : SigAction
  /-- `offer`/`answer` with missing or non-string `sdp`: dropped, logged. -/
  | invalid_sdp : SigAction
  /-- `offer`: `set-remote-description` then `create-answer` on the
  session's webrtcbin. -/
  | set_remote_offer (sdp : String) : SigAction
  /-- `answer`: `set-remote-description` on the session's webrtcbin. -/
  | set_remote_answer (sdp : String) : SigAction
  /-- the `if (fail)` branch of the ice handler ("Cannot add candidate!"). -/
  | ice_reject : SigAction
  /-- candidate contains ".local": discarded with a log line. -/
  | ice_ignore_mdns (candidate : String) : SigAction
  /-- `add-ice-candidate` emitted immediately on the session's webrtcbin. -/
  | ice_add (mline : Int) (candidate : String) : SigAction
  /-- unknown type: the `description` member is printed. -/
  | info : SigAction
deriving DecidableEq, Repr

/-- `candidate.find(".local") != std::string::npos`. -/
def contains_dot_local (s : String) : Bool :=
  decide (List.IsInfix ".local".data s.data)

/-- The `type == "ice"` branch (camera.cpp 751-793).  `fail` is
initialised to `false` and — as in the source — both else-branches assign
`false` again. -/
def ice_branch (obj : JObj) : SigAction :=
  let cand_v := jlookup obj SIG_ICE_CANDIDATE
  let line_v := jlookup obj SIG_ICE_LINE_INDEX
  let fail0 : Bool := false
  let candidate : String :=
    match cand_v with
    | some (.str s) => s
    | _ => ""
  let fail1 : Bool :=
    match cand_v with
    | some (.str _) => fail0
    | _ => false
  let mline_index : Int :=
    match line_v with
    | some (.int n) => n
    | _ => 0
  let fail2 : Bool :=
    match line_v with
    | some (.int _) => fail1
    | _ => false
  if fail2 then .ice_reject
  else if contains_dot_local candidate then .ice_ignore_mdns candidate
  else .ice_add mline_index candidate

/-- `UCamera::on_signaling_message` dispatch on an already-parsed JSON
object.  `opened` is the key set of `m_opened_sessions`. -/
def on_signaling_message (opened : List String) (obj : JObj) : SigAction :=
  match jlookup obj SIG_CLIENT with
  | some (.str client) =>
      match jlookup obj SIG_TYPE with
      | some (.str type) =>
          if type = "connection" then .open_session client
          else if client ∈ opened then
            if type = "offer" then
              match jlookup obj SIG_SDP with
              | some (.str sdp) => .set_remote_offer sdp
              | _ => .invalid_sdp
            else if type = "answer" then
              match jlookup obj SIG_SDP with
              | some (.str sdp) => .set_remote_answer sdp
              | _ => .invalid_sdp
            else if type = "ice" then ice_branch obj
            else .info
          else .no_open_session client
      | _ => .drop_missing_type
  | _ => .drop_missing_client

/-- Dispatch seen from one session: the handler consults only the key set
of `m_opened_sessions`; the session's webrtcbin state (in particular
whether a remote description has been set) is never read. -/
def process_for_session (s : FWebRtcSession) (obj : JObj) : SigAction :=
  on_signaling_message [s.client_id] obj

/- ==================================================================
   Per-camera session table and live pipeline mutation
   (UCamera::open_new_session 832-938, UCamera::close_session 940-974,
   UCamera::set_streaming_pipeline_state 814-830).
   ================================================================== -/

inductive GstState where
  | null | ready | paused | playing
deriving DecidableEq, Repr

/-- An element that `open_new_session` adds to `m_webrtcbin_pipeline`. -/
inductive BinElement where
  | queue (client : String)
  | webrtcbin (client : String)
deriving DecidableEq, Repr

structure PipelineState where
  /-- per-viewer elements currently added to the bin. -/
  elements : List BinElement
  /-- src pads handed out by `gst_element_request_pad_simple` on the tee
  and never released. -/
  requested_tee_pads : Nat
  gst_state : GstState
deriving DecidableEq, Repr

structure CameraState where
  name : String
  pipeline : PipelineState
  /-- key set of `m_opened_sessions`. -/
  opened_sessions : List String
  /-- `m_has_sessions`. -/
  has_sessions : Bool
  /-- `m_webrtcbin_tee` is non-null (true once
  `create_gst_pipeline_webrtc` succeeded). -/
  tee_exists : Bool
deriving DecidableEq, Repr

/-- State right after `create_gst_pipeline_webrtc`: the streaming
pipeline was created but never set to any state, so it is in GStreamer's
initial NULL state; no session is open. -/
def initial_camera (name : String) : CameraState :=
  { name := name
    pipeline := { elements := [], requested_tee_pads := 0, gst_state := .null }
    opened_sessions := []
    has_sessions := false
    tee_exists := true }

/-- Outcome of each fallible GStreamer call inside `open_new_session`. -/
structure AttachOutcome where
  queue_ok : Bool
  webrtcbin_ok : Bool
  tee_pad_ok : Bool
  queue_sink_pad_ok : Bool
  pad_link_ok : Bool
  element_link_ok : Bool
deriving DecidableEq, Repr

/-- `UCamera::open_new_session` (camera.cpp 832-938): returns the new
camera state and the messages handed to `send_message`.  On each failure
path the source sends one `connection` fault reply and returns without
undoing the mutations already made. -/
def open_new_session (st : CameraState) (client_id : String)
    (oc : AttachOutcome) : CameraState × List JObj :=
  if client_id ∈ st.opened_sessions then
    (st, [json5 st.name client_id false SIG_TYPE_CONNECT
            "Session with this client has already started!"])
  else if ¬ st.tee_exists then
    (st, [json5 st.name client_id false SIG_TYPE_CONNECT
            "Internal error with tee!"])
  else
    let session : FWebRtcSession :=
      { client_id := client_id, camera_name := st.name }
    if ¬ (oc.queue_ok ∧ oc.webrtcbin_ok) then
      (st, [json4 (some session) false SIG_TYPE_CONNECT "Internal error!"])
    else
      -- gst_bin_add_many(pipeline, queue, webrtcbin)
      let st1 := { st with pipeline :=
        { st.pipeline with elements :=
            st.pipeline.elements ++ [.queue client_id, .webrtcbin client_id] } }
      if ¬ oc.tee_pad_ok then
        (st1, [json4 (some session) false SIG_TYPE_CONNECT "Internal error!"])
      else
        -- gst_element_request_pad_simple(tee, "src_%u") succeeded
        let st2 := { st1 with pipeline :=
          { st1.pipeline with requested_tee_pads :=
              st1.pipeline.requested_tee_pads + 1 } }
        if ¬ oc.queue_sink_pad_ok then
          (st2, [json4 (some session) false SIG_TYPE_CONNECT "Internal error!"])
        else if ¬ oc.pad_link_ok then
          (st2, [json4 (some session) false SIG_TYPE_CONNECT "Internal error!"])
        else if ¬ oc.element_link_ok then
          (st2, [json4 (some session) false SIG_TYPE_CONNECT "Internal error!"])
        else
          let opened_msg := json4 (some session) true SIG_TYPE_CONNECT
            ("Connection with " ++ client_id ++ " and " ++ st.name ++
              " established!")
          let st3 := { st2 with
            opened_sessions := st2.opened_sessions ++ [client_id]
            pipeline := { st2.pipeline with gst_state :=
              if ¬ st2.has_sessions then .playing
              else st2.pipeline.gst_state }
            has_sessions := true }
          (st3, [opened_msg])

/-- `UCamera::close_session` (camera.cpp 940-974). -/
def close_session (st : CameraState) (client_id : String) :
    CameraState × List JObj :=
  if client_id ∈ st.opened_sessions then
    let session : FWebRtcSession :=
      { client_id := client_id, camera_name := st.name }
    let remaining := st.opened_sessions.erase client_id
    let st1 := { st with
      opened_sessions := remaining
      pipeline := { st.pipeline with
        elements := (st.pipeline.elements.erase (.webrtcbin client_id)).erase
          (.queue client_id)
        gst_state :=
          if remaining.isEmpty then .null else st.pipeline.gst_state }
      has_sessions := if remaining.isEmpty then false else st.has_sessions }
    (st1, [json4 (some session) false SIG_TYPE_CONNECT
      ("Connection with " ++ client_id ++ " and " ++ st.name ++ " closed!")])
  else
    (st, [json5 st.name "unknown" false SIG_TYPE_CONNECT
      "There are no one opened sessions!"])

/-- Session-mutating entry points reachable while a camera runs. -/
inductive CameraEvent where
  | openSession (client : String) (oc : AttachOutcome)
  | closeSession (client : String)
deriving DecidableEq, Repr

def camera_step (st : CameraState) : CameraEvent → CameraState
  | .openSession c oc => (open_new_session st c oc).1
  | .closeSession c => (close_session st c).1

def camera_run (st : CameraState) : List CameraEvent → CameraState
  | [] => st
  | e :: evs => camera_run (camera_step st e) evs

/- ==================================================================
   Probe caps handler: UCamera::on_parser_event (camera.cpp 131-169) and
   FInternalCameraOpts (camera.h).
   ================================================================== -/

structure FInternalCameraOpts where
  codec_name : String := ""
  profile : String := ""
  framerate_num : Int := 0
  framerate_den : Int := 0
  width : Int := 0
  height : Int := 0
  ready : Bool := false
deriving DecidableEq, Repr

/-- The fields of the first caps structure of the CAPS event, as the
handler queries them; a `none` field is absent and the corresponding
`gst_structure_get_*` call leaves the output variable untouched. -/
structure CapsStruct where
  width : Option Int := none
  height : Option Int := none
  framerate : Option (Int × Int) := none
  profile : Option String := none
deriving DecidableEq, Repr

/-- The field updates of `on_parser_event` before the `ready` check. -/
def apply_caps (opts : FInternalCameraOpts) (caps : CapsStruct) :
    FInternalCameraOpts :=
  let o1 := match caps.width with
    | some w => { opts with width := w }
    | none => opts
  let o2 := match caps.height with
    | some h => { o1 with height := h }
    | none => o1
  let o3 := match caps.framerate with
    | some (n, d) => { o2 with framerate_num := n, framerate_den := d }
    | none => o2
  match caps.profile with
  | some p => { o3 with profile := p }
  | none => o3

/-- `UCamera::on_parser_event` on a downstream CAPS event:
`if (width && height) ready = true`. -/
def on_parser_event (opts : FInternalCameraOpts) (caps : CapsStruct) :
    FInternalCameraOpts :=
  let o := apply_caps opts caps
  if o.width ≠ 0 ∧ o.height ≠ 0 then { o with ready := true } else o

end UCamera

/- ==================================================================
   DMA-BUF frames: FDrmFrame (include drm_frame.h, shown in
   video_utility.h 99-215) and the push loop body
   (UCamera::push_frames_to_gst_pipeline, camera.cpp 510-614).
   ================================================================== -/

structure FDrmFrame where
  fd : Int
  width : Int := 0
  height : Int := 0
  format : Int := -1
  offset : List Int := [0, 0, 0, 0]
  pitch : List Int := [0, 0, 0, 0]
  num_planes : Nat := 0
  pts_ms : Int := 0
deriving DecidableEq, Repr

namespace FDrmFrame

/-- The file descriptors that `~FDrmFrame` closes. -/
def dtor_closes (f : FDrmFrame) : List Int :=
  if 0 ≤ f.fd then [f.fd] else []

/-- The moved-from state the move operations leave behind. -/
def invalidated : FDrmFrame :=
  { fd := -1, width := 0, height := 0, format := -1,
    offset := [0, 0, 0, 0], pitch := [0, 0, 0, 0],
    num_planes := 0, pts_ms := 0 }

/-- Move constructor: the new frame takes every field; the source is
invalidated.  No descriptor is closed. -/
def move_construct (other : FDrmFrame) : FDrmFrame × FDrmFrame :=
  (other, invalidated)

/-- Move assignment onto `this`: closes `this`'s descriptor when it owns
one, then takes the fields of `other` and invalidates it.  Returns the
two updated frames and the descriptors closed. -/
def move_assign (this other : FDrmFrame) :
    (FDrmFrame × FDrmFrame) × List Int :=
  ((other, invalidated), if 0 ≤ this.fd then [this.fd] else [])

end FDrmFrame

namespace UCamera

/-- Result of one `dup(frame->fd)` call. -/
inductive DupRes where
  | ok (fd : Int)
  | err
deriving DecidableEq, Repr

/-- The outcomes of the environment calls made by one iteration of the
push loop. -/
structure PushEnv where
  /-- `gst_buffer_new()` returned non-null. -/
  buffer_ok : Bool
  /-- result of the i-th `dup(frame->fd)` of this iteration. -/
  dup : Nat → DupRes
  /-- the i-th `gst_dmabuf_allocator_alloc` returned non-null. -/
  mem_ok : Nat → Bool
  /-- `m_has_sessions` at the push check. -/
  has_sessions : Bool
  /-- `gst_app_src_push_buffer` returned `GST_FLOW_OK`. -/
  push_ok : Bool

/-- The multi-plane `for` loop of the push body, from plane `i` with `k`
planes left.  Returns (fds appended to the buffer as dmabuf memories,
fds closed inside the loop, the final `fail` flag).  A failing `dup`
breaks the loop; a failing allocation closes the dup'd fd, sets `fail`
and continues. -/
def plane_loop (env : PushEnv) : Nat → Nat → List Int × List Int × Bool
  | _, 0 => ([], [], false)
  | i, k + 1 =>
      match env.dup i with
      | .err => ([], [], true)
      | .ok g =>
          let p := plane_loop env (i + 1) k
          if env.mem_ok i then (g :: p.1, p.2.1, p.2.2)
          else (p.1, g :: p.2.1, true)

/-- One iteration of `UCamera::push_frames_to_gst_pipeline` for the
popped frame `f` (camera.cpp 528-613), ending with the frame's
destruction when its `unique_ptr` leaves scope.  Returns the fds closed
during the iteration and the fds whose dmabuf memories were handed to
the pipeline by a successful `gst_app_src_push_buffer`. -/
def push_frames_iteration (f : FDrmFrame) (env : PushEnv) :
    List Int × List Int :=
  if f.fd < 0 then (f.dtor_closes, [])
  else if ¬ env.buffer_ok then (f.dtor_closes, [])
  else if f.num_planes = 1 ∧ f.offset.headD 0 = 0 then
    match env.dup 0 with
    | .err => (f.dtor_closes, [])
    | .ok g =>
        if ¬ env.mem_ok 0 then (g :: f.dtor_closes, [])
        else if env.has_sessions then
          if env.push_ok then (f.dtor_closes, [g])
          else (g :: f.dtor_closes, [])
        else (g :: f.dtor_closes, [])
  else
    let p := plane_loop env 0 f.num_planes
    if p.2.2 then (p.2.1 ++ p.1 ++ f.dtor_closes, [])
    else if env.has_sessions then
      if env.push_ok then (p.2.1 ++ f.dtor_closes, p.1)
      else (p.2.1 ++ p.1 ++ f.dtor_closes, [])
    else (p.2.1 ++ p.1 ++ f.dtor_closes, [])

end UCamera

/- ==================================================================
   Room fan-out: USignalingServer (signaling.cpp part of
   camera-threads-varan.cpp, lines 492-569).
   ================================================================== -/

namespace USignalingServer

/-- `m_rooms`: room id to the sessions joined to that room. -/
structure ServerState where
  rooms : List (String × List String)
deriving DecidableEq, Repr

def find_room : List (String × List String) → String → Option (List String)
  | [], _ => none
  | (k, v) :: rest, key => if k = key then some v else find_room rest key

/-- `USignalingServer::broadcast_to_room`: every non-null session of the
room other than `exclude` receives `send_text(msg)`.  Returns the
recipients. -/
def broadcast_to_room (st : ServerState) (room_id : String)
    (exclude : Option String) : List String :=
  match find_room st.rooms room_id with
  | none => []
  | some sessions => sessions.filter (fun s => some s ≠ exclude)

/-- The callback installed by `USignalingServer::register_room_camera`:
outbound camera messages are forwarded as
`broadcast_to_room(room, message, nullptr)`. -/
def camera_outbound_recipients (st : ServerState) (room : String) :
    List String :=
  broadcast_to_room st room none

end USignalingServer

/- ==================================================================
   Outbound websocket client queue: UWebSocketClient
   (include/iwebsocket_client.h 44-53 and 158-181).
   ================================================================== -/

namespace UWebSocketClient

structure ClientState where
  /-- `m_send_queue`. -/
  send_queue : List String
  /-- `m_sending`. -/
  sending : Bool
deriving DecidableEq, Repr

/-- The completion events of the client's strand that touch the queue. -/
inductive WsEvent where
  /-- `send(message)`: enqueue; start `do_write` when idle. -/
  | send (msg : String)
  /-- `async_write` completed without error for the queue front. -/
  | write_ok
  /-- `async_write` completed with an error. -/
  | write_err
  /-- reconnect cycle finished (no effect on the queue). -/
  | reconnected
deriving DecidableEq, Repr

/-- One strand event.  Returns the new state and the messages that were
fully transmitted by this event. -/
def ws_step (st : ClientState) : WsEvent → ClientState × List String
  | .send m =>
      let q := st.send_queue ++ [m]
      if st.send_queue.isEmpty then
        ({ send_queue := q, sending := true }, [])
      else ({ st with send_queue := q }, [])
  | .write_ok =>
      match st.send_queue with
      | [] => (st, [])
      | m :: rest =>
          ({ send_queue := rest, sending := ¬ rest.isEmpty }, [m])
  | .write_err => ({ send_queue := [], sending := false }, [])
  | .reconnected => (st, [])

/-- Run a sequence of strand events, collecting all transmitted
messages. -/
def ws_run (st : ClientState) : List WsEvent → ClientState × List String
  | [] => (st, [])
  | e :: evs =>
      let p := ws_step st e
      let q := ws_run p.1 evs
      (q.1, p.2 ++ q.2)

end UWebSocketClient

/- ==================================================================
   State predicates and concrete states used by the theorems below.
   ================================================================== -/

/-- The session/pipeline coupling maintained by `open_new_session` and
`close_session`: `m_has_sessions` mirrors non-emptiness of
`m_opened_sessions`, the streaming pipeline is PLAYING exactly while a
session is open, and it is NULL (its creation state, restored by
`close_session`) whenever none is. -/
def camera_invariant (st : UCamera.CameraState) : Prop :=
  (st.has_sessions = true ↔ st.opened_sessions ≠ []) ∧
  (st.pipeline.gst_state = .playing ↔ st.opened_sessions ≠ []) ∧
  (st.opened_sessions = [] → st.pipeline.gst_state = .null)

/-- All GStreamer calls of `open_new_session` succeed. -/
def all_ok : UCamera.AttachOutcome :=
  { queue_ok := true, webrtcbin_ok := true, tee_pad_ok := true,
    queue_sink_pad_ok := true, pad_link_ok := true, element_link_ok := true }

/-- `gst_element_request_pad_simple` on the tee fails; everything else
succeeds. -/
def tee_pad_fails : UCamera.AttachOutcome :=
  { all_ok with tee_pad_ok := false }

/-- Camera state after one successful `connection` from client C1. -/
def demo_state : UCamera.CameraState :=
  UCamera.camera_run (UCamera.initial_camera "camera_1")
    [.openSession "C1" all_ok]

/-- A session that has not yet seen any offer/answer exchange. -/
def early_session : FWebRtcSession :=
  { client_id := "C1", camera_name := "camera_1",
    remote_description_set := false }

/-- A well-formed inbound `ice` message. -/
def early_ice_msg : JObj :=
  [(SIG_CLIENT, .str "C1"), (SIG_TYPE, .str "ice"),
   (SIG_ICE_CANDIDATE, .str "candidate:1 1 UDP 2122 192.168.1.7 40000 typ host"),
   (SIG_ICE_LINE_INDEX, .int 0)]

/-- An `ice` message missing both `candidate` and `sdpMLineIndex`. -/
def malformed_ice_msg : JObj :=
  [(SIG_CLIENT, .str "C1"), (SIG_TYPE, .str "ice")]

/-- A single-plane NV12 frame owning descriptor 5. -/
def demo_frame : FDrmFrame :=
  { fd := 5, width := 64, height := 4, format := 0,
    offset := [0, 0, 0, 0], pitch := [64, 64, 0, 0],
    num_planes := 1, pts_ms := 0 }

/-- Push-loop environment: every call succeeds; `dup` yields fd 9. -/
def demo_env : UCamera.PushEnv :=
  { buffer_ok := true, dup := fun _ => .ok 9, mem_ok := fun _ => true,
    has_sessions := true, push_ok := true }

/- ==================================================================
   ==================   THEOREMS   ==================================
   ================================================================== -/

/- ---------------------- C6: room fan-out ---------------------- -/

/-- C6 counterexample: with two viewers joined to room `camera_1`, an
outbound camera message (forwarded through the callback installed by
`register_room_camera`, which passes `exclude = nullptr` to
`broadcast_to_room`) is delivered to both sessions — so, whichever of
the two is the originating peer, another peer connected to the same room
receives the message as well, refuting unicast delivery. -/
theorem outbound_not_unicast_counterexample :
    USignalingServer.camera_outbound_recipients
        ⟨[("camera_1", ["peerA", "peerB"])]⟩ "camera_1" =
      ["peerA", "peerB"] ∧
    "peerA" ≠ "peerB" := by
  constructor
  · rfl
  · decide

/-- C6 amended: outbound signaling messages produced for a session are
not unicast to the originating peer; `register_room_camera` wires them to
`broadcast_to_room(room, msg, nullptr)`, which delivers them to every
open session of the camera's room. -/
theorem outbound_broadcast_to_all (st : USignalingServer.ServerState)
    (room : String) (sessions : List String)
    (h : USignalingServer.find_room st.rooms room = some sessions) :
    USignalingServer.camera_outbound_recipients st room = sessions := by
  unfold USignalingServer.camera_outbound_recipients
    USignalingServer.broadcast_to_room
  rw [h]
  simp

/-- C6 amended, witness at a concrete room table. -/
theorem outbound_broadcast_to_all_witness :
    USignalingServer.camera_outbound_recipients
        ⟨[("camera_1", ["peerA", "peerB"])]⟩ "camera_1" =
      ["peerA", "peerB"] :=
  outbound_broadcast_to_all ⟨[("camera_1", ["peerA", "peerB"])]⟩
    "camera_1" ["peerA", "peerB"] (by rfl)

/- ---------------------- C7: probe ready flag ---------------------- -/

/-- C7 counterexample: a CAPS event that carries only width and height
drives `ready` to true while the framerate is still unknown (0/0) and no
codec has been recorded — `on_parser_event` checks only
`width && height`. -/
theorem ready_without_framerate_counterexample :
    (UCamera.on_parser_event {} { width := some 1920, height := some 1080 }).ready
        = true ∧
    (UCamera.on_parser_event {} { width := some 1920, height := some 1080 }).framerate_num
        = 0 ∧
    (UCamera.on_parser_event {} { width := some 1920, height := some 1080 }).codec_name
        = "" := by
  refine ⟨rfl, rfl, rfl⟩

/-- `on_parser_event` never touches the `ready` field before its final
check. -/
theorem apply_caps_ready (opts : UCamera.FInternalCameraOpts)
    (caps : UCamera.CapsStruct) :
    (UCamera.apply_caps opts caps).ready = opts.ready := by
  obtain ⟨cw, ch, cf, cp⟩ := caps
  unfold UCamera.apply_caps
  cases cw <;> cases ch <;> rcases cf with _ | ⟨n, d⟩ <;> cases cp <;> rfl

/-- C7 amended: after a CAPS event the `ready` flag is true exactly when
the recorded width and height are both non-zero (or it was already true);
neither the codec nor the framerate takes part in the check — codec
presence is instead guaranteed by `try_camera_probe`, which only installs
this probe after the SDP phase has recognised the codec. -/
theorem ready_iff_width_height (opts : UCamera.FInternalCameraOpts)
    (caps : UCamera.CapsStruct) :
    (UCamera.on_parser_event opts caps).ready = true ↔
      ((UCamera.apply_caps opts caps).width ≠ 0 ∧
        (UCamera.apply_caps opts caps).height ≠ 0) ∨ opts.ready = true := by
  simp only [UCamera.on_parser_event]
  split_ifs with h
  · simp [h]
  · simp [apply_caps_ready, h]

/- ---------------------- C9: websocket send queue ---------------------- -/

/-- A message that is not in the pending queue and is never handed to
`send` again is never transmitted by any later strand activity. -/
theorem ws_not_transmitted (evs : List UWebSocketClient.WsEvent) :
    ∀ (st : UWebSocketClient.ClientState) (m : String),
      m ∉ st.send_queue → UWebSocketClient.WsEvent.send m ∉ evs →
      m ∉ (UWebSocketClient.ws_run st evs).2 := by
  induction evs with
  | nil => intro st m _ _; simp [UWebSocketClient.ws_run]
  | cons e evs ih =>
      intro st m h1 h2
      have h2e : e ≠ UWebSocketClient.WsEvent.send m := fun he => h2 (he ▸ List.mem_cons_self e evs)
      have h2t : UWebSocketClient.WsEvent.send m ∉ evs :=
        fun ht => h2 (List.mem_cons_of_mem e ht)
      simp only [UWebSocketClient.ws_run, List.mem_append, not_or]
      cases e with
      | send m' =>
          have hmm : m ≠ m' := fun he => h2e (by rw [he])
          constructor
          · simp only [UWebSocketClient.ws_step]
            split <;> simp
          · simp only [UWebSocketClient.ws_step]
            split <;> exact ih _ m (by simp [h1, hmm]) h2t
      | write_ok =>
          cases hq : st.send_queue with
          | nil =>
              refine ⟨by simp [UWebSocketClient.ws_step, hq], ?_⟩
              have : (UWebSocketClient.ws_step st .write_ok).1 = st := by
                simp [UWebSocketClient.ws_step, hq]
              rw [this]
              exact ih st m h1 h2t
          | cons h t =>
              have hmh : m ≠ h := fun he => h1 (by rw [hq, he]; exact List.mem_cons_self h t)
              have hmt : m ∉ t := fun ht => h1 (by rw [hq]; exact List.mem_cons_of_mem h ht)
              refine ⟨by simp [UWebSocketClient.ws_step, hq, hmh], ?_⟩
              exact ih _ m (by simp [UWebSocketClient.ws_step, hq, hmt]) h2t
      | write_err =>
          refine ⟨by simp [UWebSocketClient.ws_step], ?_⟩
          exact ih _ m (by simp [UWebSocketClient.ws_step]) h2t
      | reconnected =>
          refine ⟨by simp [UWebSocketClient.ws_step], ?_⟩
          exact ih _ m h1 h2t

/-- C9: a websocket write failure makes `do_write` clear the whole
pending send queue; nothing is transmitted by the failing completion, and
a message `m` that was pending at that moment is never transmitted later
unless it is handed to `send` again — there is no retransmission after
reconnect. -/
theorem write_error_discards_queue (st : UWebSocketClient.ClientState)
    (m : String) (evs : List UWebSocketClient.WsEvent)
    (hm : m ∈ st.send_queue)
    (hnores : UWebSocketClient.WsEvent.send m ∉ evs) :
    (UWebSocketClient.ws_step st .write_err).1.send_queue = [] ∧
    (UWebSocketClient.ws_step st .write_err).2 = [] ∧
    m ∉ (UWebSocketClient.ws_run
      (UWebSocketClient.ws_step st .write_err).1 evs).2 := by
  refine ⟨rfl, rfl, ?_⟩
  exact ws_not_transmitted evs _ m (by simp [UWebSocketClient.ws_step]) hnores

/-- C9 witness: with "a" and "b" pending, a write error discards both;
"b" is not transmitted by the following send/write activity. -/
theorem write_error_discards_queue_witness :
    (UWebSocketClient.ws_step ⟨["a", "b"], true⟩ .write_err).1.send_queue = [] ∧
    (UWebSocketClient.ws_step ⟨["a", "b"], true⟩ .write_err).2 = [] ∧
    "b" ∉ (UWebSocketClient.ws_run
      (UWebSocketClient.ws_step ⟨["a", "b"], true⟩ .write_err).1
      [.send "c", .write_ok, .write_ok]).2 :=
  write_error_discards_queue ⟨["a", "b"], true⟩ "b"
    [.send "c", .write_ok, .write_ok] (by decide) (by decide)

/- ------------- C2: pipeline state vs. attached sessions ------------- -/

/-- One camera event preserves `camera_invariant`. -/
theorem camera_step_invariant (st : UCamera.CameraState)
    (e : UCamera.CameraEvent) (h : camera_invariant st) :
    camera_invariant (UCamera.camera_step st e) := by
  obtain ⟨h1, h2, h3⟩ := h
  cases e with
  | openSession c oc =>
      simp only [UCamera.camera_step, UCamera.open_new_session]
      split_ifs with hc ht hq htp hsp hpl hel hps <;> try exact ⟨h1, h2, h3⟩
      all_goals refine ⟨by simp, ?_, by simp⟩
      all_goals try simp
      all_goals
        have hplay : st.pipeline.gst_state = UCamera.GstState.playing :=
          h2.mpr (h1.mp (by simpa using hps))
      all_goals simp [hplay]
  | closeSession c =>
      simp only [UCamera.camera_step, UCamera.close_session]
      split_ifs with hc hrem
      · have hnil : st.opened_sessions.erase c = [] := List.isEmpty_iff.mp hrem
        exact ⟨by simp [hnil], by simp [hnil], fun _ => rfl⟩
      · have hne : st.opened_sessions.erase c ≠ [] := by
          intro he
          exact hrem (by simp [he])
        have hcur : st.opened_sessions ≠ [] := by
          intro he
          rw [he] at hc
          cases hc
        exact ⟨⟨fun _ => hne, fun _ => h1.mpr hcur⟩,
          ⟨fun _ => hne, fun _ => h2.mpr hcur⟩, fun he => absurd he hne⟩
      · exact ⟨h1, h2, h3⟩

/-- `camera_invariant` is preserved along any event sequence. -/
theorem camera_run_invariant (evs : List UCamera.CameraEvent) :
    ∀ st : UCamera.CameraState, camera_invariant st →
      camera_invariant (UCamera.camera_run st evs) := by
  induction evs with
  | nil => intro st h; exact h
  | cons e evs ih =>
      intro st h
      exact ih _ (camera_step_invariant st e h)

/-- C2 counterexample: after a session is opened and closed again the
camera is back to having no attached PeerBranch, but `close_session`
has put the streaming pipeline into the NULL state, not READY — the
pipeline created by `create_gst_pipeline_webrtc` also starts in NULL, so
there is no reachable idle state that sits in READY. -/
theorem no_sessions_not_ready_counterexample :
    (UCamera.camera_run (UCamera.initial_camera "camera_1")
        [.openSession "C1" all_ok, .closeSession "C1"]).opened_sessions = [] ∧
    (UCamera.camera_run (UCamera.initial_camera "camera_1")
        [.openSession "C1" all_ok, .closeSession "C1"]).pipeline.gst_state ≠
      UCamera.GstState.ready := by
  constructor
  · rfl
  · decide

/-- C2 amended: at every state reachable from a freshly created camera,
the streaming pipeline is PLAYING iff at least one session is attached
(`open_new_session` raises it on the first session, `close_session`
lowers it when the last one goes); while no session is attached the
pipeline is in NULL state — not READY. -/
theorem playing_iff_sessions (name : String)
    (evs : List UCamera.CameraEvent) :
    ((UCamera.camera_run (UCamera.initial_camera name) evs).pipeline.gst_state =
        UCamera.GstState.playing ↔
      (UCamera.camera_run (UCamera.initial_camera name) evs).opened_sessions ≠ []) ∧
    ((UCamera.camera_run (UCamera.initial_camera name) evs).opened_sessions = [] →
      (UCamera.camera_run (UCamera.initial_camera name) evs).pipeline.gst_state =
        UCamera.GstState.null) := by
  have h := camera_run_invariant evs (UCamera.initial_camera name)
    (by refine ⟨by simp [UCamera.initial_camera], by simp [UCamera.initial_camera], ?_⟩
        intro _
        rfl)
  exact ⟨h.2.1, h.2.2⟩

/- ------------- C3: duplicate connection request ------------- -/

/-- C3: a `connection` message for a client that already has a session is
answered with a `connection` reply whose `ret` is `fault` and whose
description mentions the already-started session, and the whole camera
state — session table and pipeline alike — is returned unchanged. -/
theorem duplicate_connection_faulted (st : UCamera.CameraState)
    (c : String) (oc : UCamera.AttachOutcome)
    (h : c ∈ st.opened_sessions) :
    UCamera.open_new_session st c oc =
      (st, [UCamera.json5 st.name c false SIG_TYPE_CONNECT
        "Session with this client has already started!"]) ∧
    jlookup (UCamera.json5 st.name c false SIG_TYPE_CONNECT
        "Session with this client has already started!") SIG_RET =
      some (.str SIG_RET_FAULT) ∧
    List.IsInfix "already started".data
      "Session with this client has already started!".data := by
  refine ⟨by simp [UCamera.open_new_session, h], by rfl, by decide⟩

/-- C3 witness: the concrete camera that already holds a session for C1
rejects a second `connection` from C1 and stays unchanged. -/
theorem duplicate_connection_faulted_witness :
    UCamera.open_new_session demo_state "C1" all_ok =
      (demo_state, [UCamera.json5 demo_state.name "C1" false SIG_TYPE_CONNECT
        "Session with this client has already started!"]) ∧
    jlookup (UCamera.json5 demo_state.name "C1" false SIG_TYPE_CONNECT
        "Session with this client has already started!") SIG_RET =
      some (.str SIG_RET_FAULT) ∧
    List.IsInfix "already started".data
      "Session with this client has already started!".data :=
  duplicate_connection_faulted demo_state "C1" all_ok (by decide)

/- ------------- C5: failed branch attachment ------------- -/

/-- C5 counterexample: when the tee src pad request fails, the queue and
webrtcbin elements that `open_new_session` had already added to the
pipeline are left inside it — the partial sub-graph is not torn down,
the graph is not "exactly as it was before the attempt" (the fault
reply itself is sent as claimed). -/
theorem attach_failure_not_torn_down_counterexample :
    (UCamera.open_new_session (UCamera.initial_camera "camera_1") "C1"
        tee_pad_fails).1.pipeline.elements ≠
      (UCamera.initial_camera "camera_1").pipeline.elements ∧
    jlookup ((UCamera.open_new_session (UCamera.initial_camera "camera_1") "C1"
        tee_pad_fails).2.headD []) SIG_RET = some (.str SIG_RET_FAULT) := by
  constructor
  · decide
  · rfl

/-- C5 amended: when element creation succeeded but a later step of the
attachment (tee pad request, static pad lookup, pad link, or
queue-to-webrtcbin link) fails, the viewer is notified with a
`connection` reply carrying `ret = fault`, the session table and the
pipeline state are untouched, but the partially built sub-graph is NOT
torn down: the queue and webrtcbin remain added to the pipeline, and a
successfully requested tee pad is never released. -/
theorem attach_failure_faults_but_leaves_elements (st : UCamera.CameraState)
    (c : String) (oc : UCamera.AttachOutcome)
    (hnew : c ∉ st.opened_sessions) (htee : st.tee_exists = true)
    (hq : oc.queue_ok = true) (hw : oc.webrtcbin_ok = true)
    (hfail : ¬ (oc.tee_pad_ok = true ∧ oc.queue_sink_pad_ok = true ∧
      oc.pad_link_ok = true ∧ oc.element_link_ok = true)) :
    (UCamera.open_new_session st c oc).2 =
      [UCamera.json4 (some { client_id := c, camera_name := st.name }) false
        SIG_TYPE_CONNECT "Internal error!"] ∧
    (UCamera.open_new_session st c oc).1.opened_sessions =
      st.opened_sessions ∧
    (UCamera.open_new_session st c oc).1.has_sessions = st.has_sessions ∧
    (UCamera.open_new_session st c oc).1.pipeline.gst_state =
      st.pipeline.gst_state ∧
    (UCamera.open_new_session st c oc).1.pipeline.elements =
      st.pipeline.elements ++ [.queue c, .webrtcbin c] ∧
    (UCamera.open_new_session st c oc).1.pipeline.requested_tee_pads =
      (if oc.tee_pad_ok then st.pipeline.requested_tee_pads + 1
        else st.pipeline.requested_tee_pads) := by
  simp only [UCamera.open_new_session, hnew, htee, hq, hw]
  by_cases htp : oc.tee_pad_ok = true
  · by_cases hsp : oc.queue_sink_pad_ok = true
    · by_cases hpl : oc.pad_link_ok = true
      · have hel : ¬ oc.element_link_ok = true := by
          intro hel
          exact hfail ⟨htp, hsp, hpl, hel⟩
        simp [htp, hsp, hpl, hel]
      · simp [htp, hsp, hpl]
    · simp [htp, hsp]
  · simp [htp]

/-- C5 witness: the concrete failed attachment of the counterexample
input satisfies the amended description. -/
theorem attach_failure_faults_but_leaves_elements_witness :
    (UCamera.open_new_session (UCamera.initial_camera "camera_1") "C1"
        tee_pad_fails).2 =
      [UCamera.json4 (some { client_id := "C1", camera_name :=
        (UCamera.initial_camera "camera_1").name }) false
        SIG_TYPE_CONNECT "Internal error!"] ∧
    (UCamera.open_new_session (UCamera.initial_camera "camera_1") "C1"
        tee_pad_fails).1.opened_sessions =
      (UCamera.initial_camera "camera_1").opened_sessions ∧
    (UCamera.open_new_session (UCamera.initial_camera "camera_1") "C1"
        tee_pad_fails).1.has_sessions =
      (UCamera.initial_camera "camera_1").has_sessions ∧
    (UCamera.open_new_session (UCamera.initial_camera "camera_1") "C1"
        tee_pad_fails).1.pipeline.gst_state =
      (UCamera.initial_camera "camera_1").pipeline.gst_state ∧
    (UCamera.open_new_session (UCamera.initial_camera "camera_1") "C1"
        tee_pad_fails).1.pipeline.elements =
      (UCamera.initial_camera "camera_1").pipeline.elements ++
        [.queue "C1", .webrtcbin "C1"] ∧
    (UCamera.open_new_session (UCamera.initial_camera "camera_1") "C1"
        tee_pad_fails).1.pipeline.requested_tee_pads =
      (if tee_pad_fails.tee_pad_ok then
        (UCamera.initial_camera "camera_1").pipeline.requested_tee_pads + 1
       else (UCamera.initial_camera "camera_1").pipeline.requested_tee_pads) :=
  attach_failure_faults_but_leaves_elements
    (UCamera.initial_camera "camera_1") "C1" tee_pad_fails
    (by decide) (by rfl) (by rfl) (by rfl) (by decide)

/- ------------- C4: early ICE candidates are not buffered ------------- -/

/-- C4 counterexample: a session whose webrtcbin has no remote
description yet receives a well-formed `ice` message; the handler
emits `add-ice-candidate` immediately — the candidate is applied at
once, not buffered for later application, contradicting the claimed
buffering (the session object has no candidate store at all). -/
theorem ice_not_buffered_counterexample :
    early_session.remote_description_set = false ∧
    UCamera.process_for_session early_session early_ice_msg =
      UCamera.SigAction.ice_add 0
        "candidate:1 1 UDP 2122 192.168.1.7 40000 typ host" := by
  constructor
  · rfl
  · rfl

/-- C4 amended: an inbound `ice` message carrying a string candidate
without ".local" and an integer `sdpMLineIndex` is applied immediately
with `add-ice-candidate`, whether or not the session's remote
description has been set; `on_signaling_message` never consults the
remote-description state and keeps no candidate buffer. -/
theorem ice_applied_immediately (s : FWebRtcSession) (obj : JObj)
    (c : String) (m : Int)
    (hcl : jlookup obj SIG_CLIENT = some (.str s.client_id))
    (hty : jlookup obj SIG_TYPE = some (.str "ice"))
    (hc : jlookup obj SIG_ICE_CANDIDATE = some (.str c))
    (hm : jlookup obj SIG_ICE_LINE_INDEX = some (.int m))
    (hloc : UCamera.contains_dot_local c = false) :
    UCamera.process_for_session s obj = UCamera.SigAction.ice_add m c := by
  unfold UCamera.process_for_session UCamera.on_signaling_message
  simp only [hcl, hty]
  rw [if_neg (show ¬ ("ice" : String) = "connection" by decide)]
  rw [if_pos (show s.client_id ∈ [s.client_id] by simp)]
  rw [if_neg (show ¬ ("ice" : String) = "offer" by decide)]
  rw [if_neg (show ¬ ("ice" : String) = "answer" by decide)]
  rw [if_pos trivial]
  unfold UCamera.ice_branch
  simp only [hc, hm]
  simp [hloc]

/-- C4 amended, witness: the concrete pre-remote-description session and
ice message of the counterexample go through `add-ice-candidate`
immediately. -/
theorem ice_applied_immediately_witness :
    UCamera.process_for_session early_session early_ice_msg =
      UCamera.SigAction.ice_add 0
        "candidate:1 1 UDP 2122 192.168.1.7 40000 typ host" :=
  ice_applied_immediately early_session early_ice_msg
    "candidate:1 1 UDP 2122 192.168.1.7 40000 typ host" 0
    (by rfl) (by rfl) (by rfl) (by rfl) (by decide)

/- ------------- C10: the dead `fail` flag in the ice handler ------------- -/

/-- The ice branch can never take its rejection path: `fail` starts
false and both else-branches assign false again. -/
theorem ice_branch_never_rejects (obj : JObj) :
    UCamera.ice_branch obj ≠ UCamera.SigAction.ice_reject := by
  unfold UCamera.ice_branch
  rcases hcv : jlookup obj SIG_ICE_CANDIDATE with _ | v <;>
    rcases hlv : jlookup obj SIG_ICE_LINE_INDEX with _ | w <;>
    [skip; cases w; cases v; (cases v <;> cases w)] <;>
    simp <;> split <;> simp

/-- C10: the `fail` error branch of the inbound `ice` handler is
unreachable for every input (the flag is initialised to false and every
assignment assigns false), and an ice message missing both its
`candidate` and `sdpMLineIndex` fields is still processed — with an
empty candidate string and line index 0 — instead of being rejected. -/
theorem ice_reject_unreachable :
    (∀ (opened : List String) (obj : JObj),
      UCamera.on_signaling_message opened obj ≠ UCamera.SigAction.ice_reject) ∧
    (∀ (opened : List String) (obj : JObj) (client : String),
      jlookup obj SIG_CLIENT = some (.str client) →
      client ∈ opened →
      jlookup obj SIG_TYPE = some (.str "ice") →
      jlookup obj SIG_ICE_CANDIDATE = none →
      jlookup obj SIG_ICE_LINE_INDEX = none →
      UCamera.on_signaling_message opened obj =
        UCamera.SigAction.ice_add 0 "") := by
  constructor
  · intro opened obj
    unfold UCamera.on_signaling_message
    rcases jlookup obj SIG_CLIENT with _ | v
    · simp
    · cases v with
      | int n => simp
      | str client =>
          rcases jlookup obj SIG_TYPE with _ | w
          · simp
          · cases w with
            | int n => simp
            | str type =>
                simp only []
                split_ifs
                · simp
                · cases hsdp : jlookup obj SIG_SDP with
                  | none => simp
                  | some u => cases u <;> simp
                · cases hsdp : jlookup obj SIG_SDP with
                  | none => simp
                  | some u => cases u <;> simp
                · exact ice_branch_never_rejects obj
                · simp
                · simp
  · intro opened obj client hcl hmem hty hc hm
    unfold UCamera.on_signaling_message
    simp only [hcl, hty]
    rw [if_neg (show ¬ ("ice" : String) = "connection" by decide)]
    rw [if_pos hmem]
    rw [if_neg (show ¬ ("ice" : String) = "offer" by decide)]
    rw [if_neg (show ¬ ("ice" : String) = "answer" by decide)]
    rw [if_pos trivial]
    unfold UCamera.ice_branch
    simp [hc, hm, UCamera.contains_dot_local]

/-- C10 witness: an ice message with neither `candidate` nor
`sdpMLineIndex` is not rejected and ends up applied as candidate ""
at line index 0. -/
theorem ice_reject_unreachable_witness :
    UCamera.on_signaling_message ["C1"] malformed_ice_msg ≠
      UCamera.SigAction.ice_reject ∧
    UCamera.on_signaling_message ["C1"] malformed_ice_msg =
      UCamera.SigAction.ice_add 0 "" :=
  ⟨ice_reject_unreachable.1 ["C1"] malformed_ice_msg,
   ice_reject_unreachable.2 ["C1"] malformed_ice_msg "C1"
     (by rfl) (by decide) (by rfl) (by rfl) (by rfl)⟩

/- ------------- C1: each frame's descriptor is closed exactly once ------------- -/

/-- No plane-loop list ever contains the frame's own descriptor: every
fd appearing there came out of `dup`. -/
theorem plane_loop_no_frame_fd (env : UCamera.PushEnv) (x : Int)
    (hfresh : ∀ i g, env.dup i = .ok g → g ≠ x) :
    ∀ (k i : Nat), x ∉ (UCamera.plane_loop env i k).1 ∧
      x ∉ (UCamera.plane_loop env i k).2.1 := by
  intro k
  induction k with
  | zero => intro i; simp [UCamera.plane_loop]
  | succ k ih =>
      intro i
      obtain ⟨ih1, ih2⟩ := ih (i + 1)
      simp only [UCamera.plane_loop]
      cases hd : env.dup i with
      | err => simp
      | ok g =>
          have hg : x ≠ g := fun he => (hfresh i g hd) he.symm
          by_cases hm : env.mem_ok i <;> simp [hm, hg, ih1, ih2]

/-- C1: a frame owning descriptor `fd ≥ 0` has that descriptor closed
exactly once on every path of the push loop — pushed into the pipeline,
dropped because no session is attached, or dropped on any of the error
paths (`dup` always hands out a descriptor different from the still-open
`fd`) — and never hands its own descriptor to the pipeline (only dup'd
ones).  Moving a frame (by move construction or move assignment onto a
frame holding a different descriptor) transfers the descriptor: over the
destruction of both frames involved it is still closed exactly once. -/
theorem frame_descriptor_closed_once (f : FDrmFrame) (env : UCamera.PushEnv)
    (hfd : 0 ≤ f.fd)
    (hfresh : ∀ i g, env.dup i = .ok g → g ≠ f.fd) :
    ((UCamera.push_frames_iteration f env).1.count f.fd = 1 ∧
      f.fd ∉ (UCamera.push_frames_iteration f env).2) ∧
    (f.move_construct.1.dtor_closes ++
      f.move_construct.2.dtor_closes).count f.fd = 1 ∧
    ∀ dst : FDrmFrame, dst.fd ≠ f.fd →
      ((dst.move_assign f).2 ++ (dst.move_assign f).1.1.dtor_closes ++
        (dst.move_assign f).1.2.dtor_closes).count f.fd = 1 := by
  have hdtor : f.dtor_closes = [f.fd] := by
    simp [FDrmFrame.dtor_closes, hfd]
  refine ⟨?_, ?_, ?_⟩
  · simp only [UCamera.push_frames_iteration]
    rw [if_neg (by omega)]
    by_cases hb : env.buffer_ok
    case neg => simp [hb, hdtor]
    rw [if_neg (not_not_intro hb)]
    by_cases hsingle : f.num_planes = 1 ∧ f.offset.headD 0 = 0
    · rw [if_pos hsingle]
      cases hd : env.dup 0 with
      | err => simp [hdtor]
      | ok g =>
          have hg : f.fd ≠ g := fun he => (hfresh 0 g hd) he.symm
          by_cases hm : env.mem_ok 0
          · by_cases hs : env.has_sessions
            · by_cases hp : env.push_ok
              · simp [hm, hs, hp, hdtor, hg]
              · simp [hm, hs, hp, hdtor, hg]
            · simp [hm, hs, hdtor, hg]
          · simp [hm, hdtor, hg]
    · rw [if_neg hsingle]
      obtain ⟨hl1, hl2⟩ := plane_loop_no_frame_fd env f.fd hfresh f.num_planes 0
      have hc1 : (UCamera.plane_loop env 0 f.num_planes).1.count f.fd = 0 :=
        List.count_eq_zero.mpr hl1
      have hc2 : (UCamera.plane_loop env 0 f.num_planes).2.1.count f.fd = 0 :=
        List.count_eq_zero.mpr hl2
      by_cases hfl : (UCamera.plane_loop env 0 f.num_planes).2.2
      · simp [hfl, hdtor, List.count_append, hc1, hc2]
      · by_cases hs : env.has_sessions
        · by_cases hp : env.push_ok
          · simp [hfl, hs, hp, hdtor, List.count_append, hc1, hc2, hl1]
          · simp [hfl, hs, hp, hdtor, List.count_append, hc1, hc2]
        · simp [hfl, hs, hdtor, List.count_append, hc1, hc2]
  · simp [FDrmFrame.move_construct, FDrmFrame.invalidated,
      FDrmFrame.dtor_closes, hfd]
  · intro dst hdst
    simp [FDrmFrame.move_assign, FDrmFrame.invalidated, FDrmFrame.dtor_closes,
      hfd, List.count_append]
    split_ifs with h0
    · simp [List.count_cons, Ne.symm hdst]
    · simp

/-- C1 witness: the concrete single-plane frame with fd 5 pushed through
a fully successful iteration has fd 5 closed exactly once and only the
dup'd fd 9 handed to the pipeline. -/
theorem frame_descriptor_closed_once_witness :
    (UCamera.push_frames_iteration demo_frame demo_env).1.count demo_frame.fd = 1 ∧
    demo_frame.fd ∉ (UCamera.push_frames_iteration demo_frame demo_env).2 :=
  (frame_descriptor_closed_once demo_frame demo_env (by decide)
    (by intro i g h
        injection h with h2
        subst h2
        decide)).1

/- ------------- C8: parse after serialize is the identity ------------- -/

namespace BoostJson

theorem toNat_ofNat_valid (n : Nat) (h : Nat.isValidChar n) :
    (Char.ofNat n).toNat = n := by
  unfold Char.ofNat
  rw [dif_pos h]
  rfl

theorem unhex_hexDigit : ∀ d < 16, unhex (hexDigit d) = some d := by decide

/-- Evaluation: the string reader on an escape sequence. -/
theorem psc_backslash (rest : List Char) (d : Char) (rest2 s r : List Char)
    (he : readEsc rest = some (d, rest2))
    (h2 : parseStringChars rest2 = some (s, r)) :
    parseStringChars ('\\' :: rest) = some (d :: s, r) := by
  simp only [parseStringChars]
  rw [if_neg (by decide), if_pos trivial]
  split
  next heq => rw [he] at heq; cases heq
  next d' rest2' heq =>
      rw [he] at heq
      injection heq with heq
      cases heq
      simp [h2]

/-- Evaluation: the string reader on an ordinary character. -/
theorem psc_plain (c : Char) (rest s r : List Char)
    (h1 : ¬ c = '\"') (h2 : ¬ c = '\\')
    (h : parseStringChars rest = some (s, r)) :
    parseStringChars (c :: rest) = some (c :: s, r) := by
  simp only [parseStringChars]
  rw [if_neg h1, if_neg h2]
  simp [h]

theorem readEsc_code (e d : Char) (tail : List Char) (h : escCode e = some d) :
    readEsc (e :: tail) = some (d, tail) := by
  simp [readEsc, h]

/-- Reading one escaped character undoes `escChar`. -/
theorem parseStringChars_cons (c : Char) (tail s r : List Char)
    (h : parseStringChars tail = some (s, r)) :
    parseStringChars (escChar c ++ tail) = some (c :: s, r) := by
  by_cases h1 : c = '\"'
  · subst h1
    exact psc_backslash _ _ _ _ _ (readEsc_code _ _ tail (by decide)) h
  by_cases h2 : c = '\\'
  · subst h2
    exact psc_backslash _ _ _ _ _ (readEsc_code _ _ tail (by decide)) h
  by_cases h3 : c = Char.ofNat 8
  · subst h3
    exact psc_backslash _ _ _ _ _ (readEsc_code _ _ tail (by decide)) h
  by_cases h4 : c = Char.ofNat 9
  · subst h4
    exact psc_backslash _ _ _ _ _ (readEsc_code _ _ tail (by decide)) h
  by_cases h5 : c = Char.ofNat 10
  · subst h5
    exact psc_backslash _ _ _ _ _ (readEsc_code _ _ tail (by decide)) h
  by_cases h6 : c = Char.ofNat 12
  · subst h6
    exact psc_backslash _ _ _ _ _ (readEsc_code _ _ tail (by decide)) h
  by_cases h7 : c = Char.ofNat 13
  · subst h7
    exact psc_backslash _ _ _ _ _ (readEsc_code _ _ tail (by decide)) h
  by_cases h8 : c.toNat < 32
  · have hesc : escChar c =
        ['\\', 'u', '0', '0', hexDigit (c.toNat / 16),
          hexDigit (c.toNat % 16)] := by
      simp [escChar, h1, h2, h3, h4, h5, h6, h7, h8]
    have hre : readEsc ('u' :: '0' :: '0' :: hexDigit (c.toNat / 16) ::
        hexDigit (c.toNat % 16) :: tail) = some (c, tail) := by
      have hu : escCode 'u' = none := by decide
      have h0 : unhex '0' = some 0 := by decide
      have hhi := unhex_hexDigit (c.toNat / 16) (by omega)
      have hlo := unhex_hexDigit (c.toNat % 16) (by omega)
      have hval : ((0 * 16 + 0) * 16 + c.toNat / 16) * 16 + c.toNat % 16 =
          c.toNat := by omega
      have hval2 : c.toNat / 16 * 16 + c.toNat % 16 = c.toNat := by omega
      simp [readEsc, hu, readHex4, h0, hhi, hlo, hval, hval2,
        Char.ofNat_toNat]
    rw [hesc]
    exact psc_backslash _ _ _ _ _ hre h
  · have hesc : escChar c = [c] := by
      simp [escChar, h1, h2, h3, h4, h5, h6, h7, h8]
    rw [hesc]
    exact psc_plain c tail s r h1 h2 h

/-- The string reader undoes the string-body serializer. -/
theorem parseStringChars_flatMap (s : List Char) :
    ∀ tail, parseStringChars (s.flatMap escChar ++ '\"' :: tail) =
      some (s, tail) := by
  induction s with
  | nil => intro tail; simp [parseStringChars]
  | cons c s ih =>
      intro tail
      have hstep := parseStringChars_cons c (s.flatMap escChar ++ '\"' :: tail)
        s tail (ih tail)
      simpa [List.append_assoc] using hstep

theorem isDig_digitChar (d : Nat) (h : d < 10) :
    isDig (digitChar d) = true := by
  have ht : (Char.ofNat (48 + d)).toNat = 48 + d :=
    toNat_ofNat_valid _ (Or.inl (by omega))
  simp [isDig, digitChar, ht]
  omega

theorem digitChar_toNat (d : Nat) (h : d < 10) :
    (digitChar d).toNat = 48 + d :=
  toNat_ofNat_valid _ (Or.inl (by omega))

theorem natChars_digits (n : Nat) : ∀ c ∈ natChars n, isDig c = true := by
  induction n using Nat.strong_induction_on with
  | _ n ih =>
      intro c hc
      rw [natChars] at hc
      split_ifs at hc with h
      · simp at hc
        subst hc
        exact isDig_digitChar n h
      · rcases List.mem_append.mp hc with hl | hr
        · exact ih (n / 10) (Nat.div_lt_self (by omega) (by omega)) c hl
        · simp at hr
          subst hr
          exact isDig_digitChar (n % 10) (Nat.mod_lt n (by omega))

theorem natChars_ne_nil (n : Nat) : natChars n ≠ [] := by
  rw [natChars]
  split_ifs <;> simp

theorem digitsToNat_natChars (n : Nat) : digitsToNat (natChars n) = n := by
  induction n using Nat.strong_induction_on with
  | _ n ih =>
      rw [natChars]
      split_ifs with h
      · simp [digitsToNat, digitChar_toNat n h]
      · have hrec := ih (n / 10) (Nat.div_lt_self (by omega) (by omega))
        simp only [digitsToNat, List.foldl_append, List.foldl_cons,
          List.foldl_nil]
        simp only [digitsToNat] at hrec
        rw [hrec, digitChar_toNat (n % 10) (Nat.mod_lt n (by omega))]
        omega

theorem takeDigits_append (ds : List Char) (rest : List Char)
    (hds : ∀ c ∈ ds, isDig c = true)
    (hrest : ∀ c t, rest = c :: t → isDig c = false) :
    takeDigits (ds ++ rest) = (ds, rest) := by
  induction ds with
  | nil =>
      cases rest with
      | nil => rfl
      | cons c t =>
          simp [takeDigits, hrest c t rfl]
  | cons c ds ih =>
      have hc : isDig c = true := hds c (List.mem_cons_self c ds)
      have ihr := ih (fun x hx => hds x (List.mem_cons_of_mem c hx))
      simp [takeDigits, hc, ihr]

theorem parseNat_natChars (n : Nat) (rest : List Char)
    (hrest : ∀ c t, rest = c :: t → isDig c = false) :
    parseNat (natChars n ++ rest) = some (n, rest) := by
  have htd := takeDigits_append (natChars n) rest (natChars_digits n) hrest
  rcases hnc : natChars n with _ | ⟨d, ds⟩
  · exact absurd hnc (natChars_ne_nil n)
  · rw [hnc] at htd
    simp only [parseNat, htd]
    rw [← hnc, digitsToNat_natChars]

theorem natChars_head_digit (n : Nat) (c : Char) (t : List Char)
    (h : natChars n = c :: t) : isDig c = true :=
  natChars_digits n c (h ▸ List.mem_cons_self c t)

theorem parseInt_intChars (i : Int) (rest : List Char)
    (hrest : ∀ c t, rest = c :: t → isDig c = false) :
    parseInt (intChars i ++ rest) = some (i, rest) := by
  by_cases hneg : i < 0
  · have hi : intChars i = '-' :: natChars i.natAbs := by
      simp [intChars, hneg]
    rw [hi]
    simp only [List.cons_append, parseInt]
    rw [if_pos trivial, parseNat_natChars i.natAbs rest hrest]
    show some (-(i.natAbs : Int), rest) = some (i, rest)
    have hv : -(i.natAbs : Int) = i := by omega
    rw [hv]
  · have hic : intChars i = natChars i.toNat := by
      simp [intChars, hneg]
    rcases hnc : natChars i.toNat with _ | ⟨d, ds⟩
    · exact absurd hnc (natChars_ne_nil _)
    · have hd : isDig d = true := natChars_head_digit _ _ _ hnc
      have hdm : ¬ d = '-' := by
        intro he
        rw [he] at hd
        simp [isDig] at hd
      have hpn := parseNat_natChars i.toNat rest hrest
      rw [hnc] at hpn
      simp only [List.cons_append] at hpn
      rw [hic, hnc]
      simp only [List.cons_append, parseInt]
      rw [if_neg hdm, hpn]
      show some ((i.toNat : Int), rest) = some (i, rest)
      have hv : (i.toNat : Int) = i := by omega
      rw [hv]

theorem intChars_ne_nil (i : Int) : intChars i ≠ [] := by
  unfold intChars
  split_ifs
  · simp
  · exact natChars_ne_nil _

theorem String.mk_data (s : String) : String.mk s.data = s := by
  cases s
  rfl

/-- The value reader undoes the value serializer (for a continuation that
does not begin with a digit). -/
theorem parseVal_renderVal (v : JVal) (rest : List Char)
    (hrest : ∀ c t, rest = c :: t → isDig c = false) :
    parseVal (renderVal v ++ rest) = some (v, rest) := by
  cases v with
  | str s =>
      show parseVal (('\"' :: (s.data.flatMap escChar ++ ['\"'])) ++ rest) = _
      simp only [List.cons_append, List.append_assoc, List.singleton_append,
        List.nil_append, parseVal]
      rw [if_pos trivial, parseStringChars_flatMap s.data rest]
  | int i =>
      rcases hic : intChars i with _ | ⟨c, t⟩
      · exact absurd hic (intChars_ne_nil i)
      · have hcq : ¬ c = '\"' := by
          intro he
          subst he
          unfold intChars at hic
          split_ifs at hic with hneg
          · cases hic
          · have hdd := natChars_head_digit i.toNat _ _ hic
            simp [isDig] at hdd
        have hpi := parseInt_intChars i rest hrest
        rw [hic] at hpi
        simp only [List.cons_append] at hpi
        have hrv : renderVal (JVal.int i) = c :: t := hic
        rw [hrv]
        simp only [List.cons_append, parseVal]
        rw [if_neg hcq, hpi]

theorem le_length_renderMembers (o : JObj) :
    o.length ≤ (renderMembers o).length := by
  induction o with
  | nil => simp [renderMembers]
  | cons kv rest ih =>
      obtain ⟨k, v⟩ := kv
      cases rest with
      | nil =>
          simp [renderMembers, renderStringChars]
      | cons kv2 rest2 =>
          simp only [renderMembers, List.length_append, List.length_cons]
          simp only [List.length_cons] at ih
          omega

theorem renderMembers_head (k : String) (v : JVal) (rest : JObj) :
    ∃ t, renderMembers ((k, v) :: rest) = '\"' :: t := by
  cases rest with
  | nil => exact ⟨_, rfl⟩
  | cons kv2 rest2 => exact ⟨_, rfl⟩

/-- The member reader undoes the member serializer, given enough fuel and
a closing brace behind. -/
theorem parseMembersF_renderMembers (o : JObj) :
    ∀ (fuel : Nat) (rr : List Char), o ≠ [] → o.length ≤ fuel →
      parseMembersF fuel (renderMembers o ++ '\x7d' :: rr) =
        some (o, '\x7d' :: rr) := by
  induction o with
  | nil => intro fuel rr ho _; exact absurd rfl ho
  | cons kv o ih =>
      obtain ⟨k, v⟩ := kv
      intro fuel rr _ hfuel
      cases fuel with
      | zero => simp at hfuel
      | succ fuel =>
          cases o with
          | nil =>
              have hform : renderMembers [(k, v)] ++ '\x7d' :: rr =
                  '\"' :: (k.data.flatMap escChar ++ '\"' ::
                    (':' :: (renderVal v ++ '\x7d' :: rr))) := by
                simp [renderMembers, renderStringChars, List.append_assoc]
              have hps := parseStringChars_flatMap k.data
                (':' :: (renderVal v ++ '\x7d' :: rr))
              have hpv := parseVal_renderVal v ('\x7d' :: rr)
                (by intro c t he; cases he; decide)
              rw [hform]
              simp only [parseMembersF]
              rw [if_pos trivial, hps]
              simp only []
              rw [if_pos trivial, hpv]
              simp [String.mk_data]
          | cons kv2 o2 =>
              have hform : renderMembers ((k, v) :: kv2 :: o2) ++ '\x7d' :: rr =
                  '\"' :: (k.data.flatMap escChar ++ '\"' ::
                    (':' :: (renderVal v ++ ',' ::
                      (renderMembers (kv2 :: o2) ++ '\x7d' :: rr)))) := by
                simp [renderMembers, renderStringChars, List.append_assoc]
              have hps := parseStringChars_flatMap k.data
                (':' :: (renderVal v ++ ',' ::
                  (renderMembers (kv2 :: o2) ++ '\x7d' :: rr)))
              have hpv := parseVal_renderVal v (',' ::
                (renderMembers (kv2 :: o2) ++ '\x7d' :: rr))
                (by intro c t he; cases he; decide)
              have hrec := ih fuel rr (by simp)
                (by simp only [List.length_cons] at hfuel ⊢; omega)
              rw [hform]
              simp only [parseMembersF]
              rw [if_pos trivial, hps]
              simp only []
              rw [if_pos trivial, hpv]
              simp only []
              rw [if_pos trivial, hrec]

/-- C8: parse after serialize is the identity on every signaling envelope
object: serializing any envelope — every message the camera builds with
`UCamera::json` (plus the `sdp` / `candidate` / `sdpMLineIndex` members
added before sending) is such an object — to its JSON wire text and
parsing that text back yields the same object, member for member. -/
theorem parse_serialize_roundtrip (o : JObj) :
    parse (serialize o) = some o := by
  cases o with
  | nil => rfl
  | cons kv rest =>
      obtain ⟨k, v⟩ := kv
      obtain ⟨tm, htm⟩ := renderMembers_head k v rest
      have hco : renderMembers ((k, v) :: rest) ++ '\x7d' :: ([] : List Char) =
          '\"' :: (tm ++ ['\x7d']) := by
        rw [htm, List.cons_append]
      have hlen : ((k, v) :: rest).length ≤
          ('\"' :: (tm ++ ['\x7d'])).length := by
        have h1 := le_length_renderMembers ((k, v) :: rest)
        have h2 : ('\"' :: (tm ++ ['\x7d'])).length =
            (renderMembers ((k, v) :: rest)).length + 1 := by
          rw [← hco]
          simp
        omega
      have hmem := parseMembersF_renderMembers ((k, v) :: rest)
        ('\"' :: (tm ++ ['\x7d'])).length [] (by simp) hlen
      rw [hco] at hmem
      show (match parseObjChars ('\x7b' ::
          (renderMembers ((k, v) :: rest) ++ ['\x7d'])) with
        | some (o, []) => some o
        | _ => none) = some ((k, v) :: rest)
      rw [show renderMembers ((k, v) :: rest) ++ ['\x7d'] =
        '\"' :: (tm ++ ['\x7d']) from hco]
      simp only [parseObjChars]
      rw [if_pos trivial]
      rw [if_neg (show ¬ '\"' = '\x7d' by decide)]
      rw [hmem]
      rfl

end BoostJson

end RJD
